import Mathlib

/-!
Shallow embedding of the NeatPy module (`neatpy/_NeatPy.py`): three
element-wise cleaning operations over a pandas-like Series of strings.

Strings are modelled as `List Char`; a pandas Series is modelled as an
index list together with a data list of equal length.  Element-wise
`apply`/`str.replace` become `List.map`; `astype` becomes an
all-or-nothing `Option`-valued conversion (pandas raises on the first
element that cannot be converted, so the call as a whole either returns
a complete new series or fails).

The regular-expression character classes are embedded with their exact
semantics in the reference implementation language (CPython 3.11,
Unicode 14): `\d` is the set of Unicode decimal digits (66 aligned runs
of ten consecutive code points), and `[a-z0-9]` with IGNORECASE matches
the ASCII letters and digits plus the four non-ASCII characters that
are equal to an ASCII letter up to case folding (U+0130, U+0131,
U+017F, U+212A).
-/

namespace NeatPy

/-- A pandas-like Series: an ordered sequence of values addressed by a
stable index. -/
structure Series (α : Type) where
  index : List Nat
  data : List α
deriving DecidableEq

/-- Python strings, modelled as lists of characters. -/
abbrev PyStr := List Char

/-- The string constant `string.punctuation`: the printable ASCII
symbols, code points 33-47, 58-64, 91-96 and 123-126. -/
def pyPunctuation : PyStr :=
  ((List.range 128).filter (fun n =>
    decide ((33 ≤ n ∧ n ≤ 47) ∨ (58 ≤ n ∧ n ≤ 64) ∨
      (91 ≤ n ∧ n ≤ 96) ∨ (123 ≤ n ∧ n ≤ 126)))).map Char.ofNat

/-- The string constant `numbers = "0123456789"` used by `to_text`. -/
def pyNumbers : PyStr := "0123456789".toList

/-- Does `pat` occur as a contiguous substring of the second argument? -/
def occursIn (pat : PyStr) : PyStr → Bool
  | [] => pat.isPrefixOf []
  | c :: rest => pat.isPrefixOf (c :: rest) || occursIn pat rest

/-- Fuel-indexed worker for `removeSubstr`; the fuel is always at least
the length of the string being scanned. -/
def removeSubstrAux (pat : PyStr) : Nat → PyStr → PyStr
  | _, [] => []
  | 0, s => s
  | fuel + 1, c :: rest =>
    if !pat.isEmpty && pat.isPrefixOf (c :: rest) then
      removeSubstrAux pat fuel (rest.drop (pat.length - 1))
    else c :: removeSubstrAux pat fuel rest

/-- Python `s.replace(pat, '')`: delete every (leftmost, non-overlapping)
occurrence of the substring `pat` from `s`. -/
def removeSubstr (pat s : PyStr) : PyStr := removeSubstrAux pat s.length s

/-- The `keep` argument of `to_text`: absent, a single string, or a list
of strings (the dynamic typing of the Python parameter). -/
inductive PyKeep where
  | none
  | str (s : PyStr)
  | list (l : List PyStr)
deriving DecidableEq

/-- The `keep_num` argument of `to_text`: absent, a single integer, or a
list of integers. -/
inductive PyKeepNum where
  | none
  | int (n : Int)
  | list (l : List Int)
deriving DecidableEq

/-- Python truthiness of the `keep` argument (`if keep:`): an absent
value, the empty string and the empty list are falsy. -/
def keepTruthy : PyKeep → Bool
  | PyKeep.none => false
  | PyKeep.str s => !s.isEmpty
  | PyKeep.list l => !l.isEmpty

/-- Python truthiness of the `keep_num` argument (`if keep_num:`): an
absent value, the integer `0` and the empty list are falsy. -/
def keepNumTruthy : PyKeepNum → Bool
  | PyKeepNum.none => false
  | PyKeepNum.int n => !(n == 0)
  | PyKeepNum.list l => !l.isEmpty

/-- Decimal digits of a natural number, most significant first
(fuel-indexed; the fuel is always sufficient). -/
def natToChars : Nat → Nat → List Char
  | 0, _ => []
  | fuel + 1, n =>
    if n < 10 then [Char.ofNat (48 + n)]
    else natToChars fuel (n / 10) ++ [Char.ofNat (48 + n % 10)]

/-- Python `str(n)` for an integer `n`: decimal digits, with a leading
minus sign (code 45) when `n` is negative. -/
def intToStr (n : Int) : PyStr :=
  if n < 0 then Char.ofNat 45 :: natToChars (n.natAbs + 1) n.natAbs
  else natToChars (n.natAbs + 1) n.natAbs

/-- First code points of the 66 aligned runs of ten consecutive Unicode
decimal digits (category Nd, Unicode 14.0): the set matched by the
regular expression class `\d` in the reference implementation. -/
def pyDigitStarts : List Nat :=
  [48, 1632, 1776, 1984, 2406, 2534, 2662, 2790, 2918, 3046, 3174,
   3302, 3430, 3558, 3664, 3792, 3872, 4160, 4240, 6112, 6160, 6470,
   6608, 6784, 6800, 6992, 7088, 7232, 7248, 42528, 43216, 43264,
   43472, 43504, 43600, 44016, 65296, 66720, 68912, 69734, 69872,
   69942, 70096, 70384, 70736, 70864, 71248, 71360, 71472, 71904,
   72016, 72784, 73040, 73120, 92768, 92864, 93008, 120782, 120792,
   120802, 120812, 120822, 123200, 123632, 125264, 130032]

/-- Membership in the regular-expression class `\d` (Unicode decimal
digit). -/
def isPyDigit (c : Char) : Bool :=
  pyDigitStarts.any (fun a => decide (a ≤ c.toNat ∧ c.toNat < a + 10))

/-- The decimal value of a Unicode decimal digit: its offset inside its
run of ten code points. -/
def pyDigitVal (c : Char) : Nat :=
  match pyDigitStarts.find? (fun a => decide (a ≤ c.toNat ∧ c.toNat < a + 10)) with
  | some a => c.toNat - a
  | Option.none => 0

/-- Python `int(s)` on a digits-only string: fails on the empty string
or on a non-digit character, otherwise combines the decimal values of
the digits. -/
def parsePyInt (s : PyStr) : Option Nat :=
  if s.isEmpty then Option.none
  else if s.all isPyDigit then
    some (s.foldl (fun acc c => 10 * acc + pyDigitVal c) 0)
  else Option.none

/-- The target dtype of `astype` as used by `to_integer`. -/
inductive DType where
  | int
  | float
deriving DecidableEq

/-- pandas `astype` over a list of cleaned strings: converts every
element, failing as a whole on the first element that cannot be
converted. -/
def astypeList (f : PyStr → Option Nat) : List PyStr → Option (List Nat)
  | [] => some []
  | x :: xs =>
    match f x, astypeList f xs with
    | some v, some vs => some (v :: vs)
    | _, _ => Option.none

/-- `to_integer(series, dtype=float)`: delete every character matching
`\D` (i.e. keep exactly the `\d` characters) in each element, then cast
the whole series to `dtype`.  The numeric value is recorded as a
natural number tagged with the requested dtype; this value-level model
is exact for in-range results, and the representable-range check that
`astype` performs for the fixed-width integer target is modelled below
in `to_integer_checked`. -/
def to_integer (series : Series PyStr) (dtype : DType := DType.float) :
    Option (DType × Series Nat) :=
  let stripped := series.data.map (fun x => x.filter isPyDigit)
  match astypeList parsePyInt stripped with
  | some vals => some (dtype, ⟨series.index, vals⟩)
  | Option.none => Option.none

/-- Largest value of the int64 target of `astype(int)` (the platform C
long of the reference Linux build): 2^63 - 1. -/
def int64Max : Nat := 9223372036854775807

/-- The `astype` cast of one stripped string to the target dtype,
including the dtype's representable-range check: `int()` parsing, then
for the int64 target an OverflowError beyond `int64Max`.  The float
target accepts every digit string — CPython's `float()` maps values
beyond the double range to infinity instead of raising — so only the
parse step can fail there (the rounding of large float values is not
part of this error model; the parsed value is recorded exactly). -/
def astypeCast (dtype : DType) (s : PyStr) : Option Nat :=
  match parsePyInt s with
  | Option.none => Option.none
  | some n =>
    match dtype with
    | DType.int => if n ≤ int64Max then some n else Option.none
    | DType.float => some n

/-- `to_integer` with the complete `astype` error semantics: each
stripped element is parsed and then checked against the target dtype's
representable range, and the call fails if any element cannot be
cast. -/
def to_integer_checked (series : Series PyStr)
    (dtype : DType := DType.float) : Option (DType × Series Nat) :=
  let stripped := series.data.map (fun x => x.filter isPyDigit)
  match astypeList (astypeCast dtype) stripped with
  | some vals => some (dtype, ⟨series.index, vals⟩)
  | Option.none => Option.none

/-- `to_text(series, punct=True, keep=None, keep_num=None)`: build the
deletion string `punct_numbers` from `string.punctuation` (with each
`keep` entry removed from it as a substring) and `"0123456789"` (with
the decimal representation of each `keep_num` entry removed from it as
a substring), then delete every character of the deletion string from
every element. -/
def to_text (series : Series PyStr) (punct : Bool := true)
    (keep : PyKeep := PyKeep.none) (keep_num : PyKeepNum := PyKeepNum.none) :
    Series PyStr :=
  let punctuation :=
    if keepTruthy keep then
      match keep with
      | PyKeep.none => pyPunctuation
      | PyKeep.str s => removeSubstr s pyPunctuation
      | PyKeep.list l => l.foldl (fun p k => removeSubstr k p) pyPunctuation
    else pyPunctuation
  let numbers :=
    if keepNumTruthy keep_num then
      match keep_num with
      | PyKeepNum.none => pyNumbers
      | PyKeepNum.int n => removeSubstr (intToStr n) pyNumbers
      | PyKeepNum.list l =>
        l.foldl (fun acc k => removeSubstr (intToStr k) acc) pyNumbers
    else pyNumbers
  let punct_numbers := if punct then punctuation ++ numbers else numbers
  ⟨series.index,
   series.data.map (fun x => x.filter (fun c => !punct_numbers.contains c))⟩

/-- Spec-worded variant of `extract_numeric`, following the sentence
"remove every character that is not a decimal digit (characters 0-9)":
only the ASCII digits survive the stripping step. -/
def extract_numeric_specWorded (series : Series PyStr)
    (dtype : DType := DType.float) : Option (DType × Series Nat) :=
  let stripped := series.data.map
    (fun x => x.filter (fun c => decide (48 ≤ c.toNat ∧ c.toNat ≤ 57)))
  match astypeList parsePyInt stripped with
  | some vals => some (dtype, ⟨series.index, vals⟩)
  | Option.none => Option.none

/-- The character class `[a-z0-9]` compiled with IGNORECASE by the
reference implementation: ASCII digits, ASCII letters of both cases,
and the four non-ASCII characters İ (U+0130), ı (U+0131), ſ (U+017F)
and K (U+212A) that are equal to an ASCII letter up to case folding. -/
def pyAlnumIC (c : Char) : Bool :=
  decide ((48 ≤ c.toNat ∧ c.toNat ≤ 57) ∨ (65 ≤ c.toNat ∧ c.toNat ≤ 90) ∨
    (97 ≤ c.toNat ∧ c.toNat ≤ 122) ∨ c.toNat = 304 ∨ c.toNat = 305 ∨
    c.toNat = 383 ∨ c.toNat = 8490)

/-- `to_specialChr(series)`: substitute the empty string for every
character matching `[a-z0-9]` (case-insensitive) in each element. -/
def to_specialChr (series : Series PyStr) : Series PyStr :=
  ⟨series.index, series.data.map (fun x => x.filter (fun c => !pyAlnumIC c))⟩

/-- Spec-worded variant of `strip_digits_and_punctuation`, following
the sentence "build a removal set = (punctuation characters, if
remove_punctuation is true) ∪ (digit characters 0-9), then subtract
every character named in keep and every digit named in keep_digits",
then delete exactly the characters of the final removal set. -/
def strip_specWorded (series : Series PyStr) (punct : Bool)
    (keep : List Char) (keepDigits : List Int) : Series PyStr :=
  let base := (if punct then pyPunctuation else []) ++ pyNumbers
  let removal := base.filter (fun c =>
    !keep.contains c &&
    !(keepDigits.map (fun n => Char.ofNat (48 + n.toNat))).contains c)
  ⟨series.index,
   series.data.map (fun x => x.filter (fun c => !removal.contains c))⟩

section Lemmas

/-- If `pat` does not occur in `s`, the scan leaves `s` unchanged,
whatever the fuel. -/
theorem removeSubstrAux_not_occurs (pat : PyStr) :
    ∀ (fuel : Nat) (s : PyStr), occursIn pat s = false →
      removeSubstrAux pat fuel s = s := by
  intro fuel
  induction fuel with
  | zero =>
    intro s _
    cases s <;> rfl
  | succ f ih =>
    intro s hs
    cases s with
    | nil => rfl
    | cons c rest =>
      rw [occursIn, Bool.or_eq_false_iff] at hs
      rw [removeSubstrAux, if_neg, ih rest hs.2]
      simp [hs.1]

/-- Python `s.replace(pat, '')` is the identity when `pat` does not
occur in `s`. -/
theorem removeSubstr_not_occurs (pat s : PyStr)
    (h : occursIn pat s = false) : removeSubstr pat s = s :=
  removeSubstrAux_not_occurs pat s.length s h

/-- With a single-character pattern and enough fuel, the scan is a
character filter. -/
theorem removeSubstrAux_single (k : Char) :
    ∀ (fuel : Nat) (s : PyStr), s.length ≤ fuel →
      removeSubstrAux [k] fuel s = s.filter (fun c => !(c == k)) := by
  intro fuel
  induction fuel with
  | zero =>
    intro s hs
    interval_cases h : s.length
    · cases s with
      | nil => rfl
      | cons c rest => simp at h
  | succ f ih =>
    intro s hs
    cases s with
    | nil => rfl
    | cons c rest =>
      simp only [List.length_cons, Nat.succ_le_succ_iff] at hs
      by_cases hck : k = c
      · subst hck
        rw [removeSubstrAux, if_pos]
        · have h1 : (([k] : PyStr).length - 1) = 0 := rfl
          rw [h1, List.drop_zero, ih rest hs, List.filter_cons]
          simp
        · simp [List.isPrefixOf]
      · rw [removeSubstrAux, if_neg, ih rest hs]
        · have : (c == k) = false := by simp [hck, Ne.symm hck]
          simp [this]
        · have : (k == c) = false := by simp [hck]
          simp [List.isPrefixOf, this]

/-- Python `s.replace(k, '')` with a single character `k` deletes
exactly the occurrences of `k`. -/
theorem removeSubstr_single (k : Char) (s : PyStr) :
    removeSubstr [k] s = s.filter (fun c => !(c == k)) :=
  removeSubstrAux_single k s.length s (Nat.le_refl _)

/-- Folding single-character deletions over a list of characters
filters out exactly the characters of that list. -/
theorem foldl_remove_singles :
    ∀ (cs : List Char) (p : PyStr),
      cs.foldl (fun acc c => removeSubstr [c] acc) p =
        p.filter (fun x => !cs.contains x) := by
  intro cs
  induction cs with
  | nil =>
    intro p
    simp
  | cons c cs ih =>
    intro p
    rw [List.foldl_cons, ih, removeSubstr_single, List.filter_filter]
    apply List.filter_congr
    intro a _
    simp only [List.contains_cons, Bool.not_or]
    exact Bool.and_comm _ _

/-- Folding substring deletions whose patterns never occur in the base
string leaves the base string unchanged (the `keep` fold). -/
theorem foldl_remove_noop :
    ∀ (l : List PyStr) (base : PyStr),
      (∀ k ∈ l, occursIn k base = false) →
      l.foldl (fun p k => removeSubstr k p) base = base := by
  intro l
  induction l with
  | nil => intro base _; rfl
  | cons k l ih =>
    intro base h
    rw [List.foldl_cons, removeSubstr_not_occurs k base (h k (List.mem_cons_self _ _))]
    exact ih base (fun k' hk' => h k' (List.mem_cons_of_mem _ hk'))

/-- Folding deletions of the decimal representations of integers whose
representations never occur in the base string leaves the base string
unchanged (the `keep_num` fold). -/
theorem foldl_remove_num_noop :
    ∀ (l : List Int) (base : PyStr),
      (∀ n ∈ l, occursIn (intToStr n) base = false) →
      l.foldl (fun acc k => removeSubstr (intToStr k) acc) base = base := by
  intro l
  induction l with
  | nil => intro base _; rfl
  | cons n l ih =>
    intro base h
    rw [List.foldl_cons,
      removeSubstr_not_occurs (intToStr n) base (h n (List.mem_cons_self _ _))]
    exact ih base (fun n' hn' => h n' (List.mem_cons_of_mem _ hn'))

/-- Python `str(n)` of a single-digit nonnegative integer is the
corresponding digit character. -/
theorem intToStr_digit (n : Int) (h0 : 0 ≤ n) (h9 : n < 10) :
    intToStr n = [Char.ofNat (48 + n.toNat)] := by
  have hn : ¬ n < 0 := by omega
  have habs : n.natAbs = n.toNat := by omega
  have hlt : n.natAbs < 10 := by omega
  rw [intToStr, if_neg hn, natToChars, if_pos hlt, habs]

/-- The digit fold of `keep_num`, for single-digit entries, filters out
exactly the corresponding digit characters. -/
theorem foldl_remove_num_digits :
    ∀ (ns : List Int), (∀ n ∈ ns, 0 ≤ n ∧ n < 10) → ∀ (p : PyStr),
      ns.foldl (fun acc k => removeSubstr (intToStr k) acc) p =
        p.filter (fun x =>
          !(ns.map (fun n => Char.ofNat (48 + n.toNat))).contains x) := by
  intro ns
  induction ns with
  | nil =>
    intro _ p
    simp
  | cons n ns ih =>
    intro h p
    have hn := h n (List.mem_cons_self _ _)
    rw [List.foldl_cons, intToStr_digit n hn.1 hn.2, removeSubstr_single,
      ih (fun n' hn' => h n' (List.mem_cons_of_mem _ hn')), List.filter_filter]
    apply List.filter_congr
    intro a _
    simp only [List.map_cons, List.contains_cons, Bool.not_or]
    exact Bool.and_comm _ _

/-- The all-or-nothing conversion preserves length when it succeeds. -/
theorem astypeList_length (f : PyStr → Option Nat) :
    ∀ (l : List PyStr) (v : List Nat),
      astypeList f l = some v → v.length = l.length := by
  intro l
  induction l with
  | nil =>
    intro v hv
    rw [astypeList] at hv
    cases hv
    rfl
  | cons x xs ih =>
    intro v hv
    rw [astypeList] at hv
    cases hfx : f x with
    | none => rw [hfx] at hv; cases hv
    | some b =>
      cases hrest : astypeList f xs with
      | none => rw [hfx, hrest] at hv; cases hv
      | some bs =>
        rw [hfx, hrest] at hv
        cases hv
        simp [ih bs hrest]

/-- Python `int` applied to a `\d`-filtered string: it fails exactly on
the empty string, and otherwise combines the decimal digit values. -/
theorem parsePyInt_filter (x : PyStr) :
    parsePyInt (x.filter isPyDigit) =
      if (x.filter isPyDigit).isEmpty then Option.none
      else some ((x.filter isPyDigit).foldl
        (fun acc c => 10 * acc + pyDigitVal c) 0) := by
  have hall : (x.filter isPyDigit).all isPyDigit = true := by
    simp [List.all_eq_true, List.mem_filter]
  rw [parsePyInt, hall]
  simp

/-- Characterization of the conversion pipeline of `to_integer`: it
succeeds exactly when every stripped element is nonempty, and then
yields the decimal values of the stripped elements. -/
theorem astypeList_clean :
    ∀ (l : List PyStr),
      astypeList parsePyInt (l.map (fun x => x.filter isPyDigit)) =
        if l.all (fun x => !(x.filter isPyDigit).isEmpty) then
          some (l.map (fun x => (x.filter isPyDigit).foldl
            (fun acc c => 10 * acc + pyDigitVal c) 0))
        else Option.none := by
  intro l
  induction l with
  | nil => rfl
  | cons x xs ih =>
    rw [List.map_cons, astypeList, ih, parsePyInt_filter, List.all_cons]
    by_cases hx : (x.filter isPyDigit).isEmpty
    · simp [hx]
    · by_cases hxs : xs.all (fun x => !(x.filter isPyDigit).isEmpty)
      · simp [hx, hxs]
      · simp [hx, hxs]

/-- The all-or-nothing conversion fails exactly when the conversion of
some element fails. -/
theorem astypeList_none_iff (f : PyStr → Option Nat) :
    ∀ (l : List PyStr),
      astypeList f l = Option.none ↔ ∃ x ∈ l, f x = Option.none := by
  intro l
  induction l with
  | nil =>
    constructor
    · intro h
      cases h
    · rintro ⟨x, hx, _⟩
      cases hx
  | cons x xs ih =>
    constructor
    · intro h
      rw [astypeList] at h
      cases hfx : f x with
      | none => exact ⟨x, List.mem_cons_self _ _, hfx⟩
      | some v =>
        cases hrest : astypeList f xs with
        | none =>
          obtain ⟨y, hy, hfy⟩ := ih.mp hrest
          exact ⟨y, List.mem_cons_of_mem _ hy, hfy⟩
        | some vs =>
          rw [hfx, hrest] at h
          cases h
    · rintro ⟨y, hy, hfy⟩
      rw [astypeList]
      rcases List.mem_cons.mp hy with h | h
      · subst h
        rw [hfy]
      · have hxs : astypeList f xs = Option.none := ih.mpr ⟨y, h, hfy⟩
        rw [hxs]
        cases f x <;> rfl

end Lemmas

/-- C3 counterexample: on the series ["123.45", "456.78", "789.0"] with
integer target type, `to_integer` does not return [123, 456, 789] — the
decimal point is stripped together with all other non-digits, so the
fractional digits are concatenated onto the integer part. -/
theorem to_integer_example_cex :
    to_integer ⟨[0, 1, 2],
      ["123.45".toList, "456.78".toList, "789.0".toList]⟩ DType.int ≠
      some (DType.int, ⟨[0, 1, 2], [123, 456, 789]⟩) := by decide

/-- C3 (amended): applying `to_integer` with integer target type to the
series ["123.45", "456.78", "789.0"] returns the series
[12345, 45678, 7890]. -/
theorem to_integer_example_actual :
    to_integer ⟨[0, 1, 2],
      ["123.45".toList, "456.78".toList, "789.0".toList]⟩ DType.int =
      some (DType.int, ⟨[0, 1, 2], [12345, 45678, 7890]⟩) := by decide

/-- C4 counterexample: on the series ["Hello, 123!", "World456",
"Python"] with remove_punctuation, keep = ["o", "5"], keep_digits = [2],
`to_text` does not return ["Holle", "Wrd", "Python"]: letters are never
in the removal set, the space survives, the kept digit 2 survives, and
"5" subtracts only from the punctuation string (where it does not
occur), so the digit 5 is still removed. -/
theorem to_text_example_cex :
    to_text ⟨[0, 1, 2],
        ["Hello, 123!".toList, "World456".toList, "Python".toList]⟩
        true (PyKeep.list [['o'], ['5']]) (PyKeepNum.list [2]) ≠
      ⟨[0, 1, 2], ["Holle".toList, "Wrd".toList, "Python".toList]⟩ := by
  decide

/-- C4 (amended): applying `to_text` to the series ["Hello, 123!",
"World456", "Python"] with remove_punctuation true, keep = ["o", "5"]
and keep_digits = [2] returns the series ["Hello 2", "World",
"Python"]. -/
theorem to_text_example_actual :
    to_text ⟨[0, 1, 2],
        ["Hello, 123!".toList, "World456".toList, "Python".toList]⟩
        true (PyKeep.list [['o'], ['5']]) (PyKeepNum.list [2]) =
      ⟨[0, 1, 2], ["Hello 2".toList, "World".toList, "Python".toList]⟩ := by
  decide

/-- C5 counterexample: the non-ASCII character K (U+212A, the Kelvin
sign) does not pass through `to_specialChr` unchanged — it is removed,
because the case-insensitive class [a-z0-9] matches it. -/
theorem to_specialChr_nonascii_cex :
    to_specialChr ⟨[0], [[Char.ofNat 8490]]⟩ = ⟨[0], [[]]⟩ ∧
    to_specialChr ⟨[0], [[Char.ofNat 8490]]⟩ ≠ ⟨[0], [[Char.ofNat 8490]]⟩ := by
  decide

/-- C5 (amended): `to_specialChr` removes from each element exactly the
ASCII letters, the ASCII digits, and the four non-ASCII characters
İ (U+0130), ı (U+0131), ſ (U+017F) and K (U+212A) that are equal to an
ASCII letter up to case folding; every other character passes through
unchanged, and a fully alphanumeric element becomes the empty string,
not a placeholder symbol (so all three elements of the documented
example, "Python" included, reduce to the empty string). -/
theorem to_specialChr_characterization :
    (∀ s : Series PyStr,
      to_specialChr s = ⟨s.index, s.data.map (fun x => x.filter (fun c =>
        !decide ((65 ≤ c.toNat ∧ c.toNat ≤ 90) ∨
          (97 ≤ c.toNat ∧ c.toNat ≤ 122) ∨ (48 ≤ c.toNat ∧ c.toNat ≤ 57) ∨
          c.toNat = 304 ∨ c.toNat = 305 ∨ c.toNat = 383 ∨
          c.toNat = 8490)))⟩) ∧
    to_specialChr ⟨[0, 1, 2],
        ["Hello123".toList, "World456".toList, "Python".toList]⟩ =
      ⟨[0, 1, 2], [[], [], []]⟩ := by
  constructor
  · intro s
    have hfun : (fun c => !pyAlnumIC c) = (fun c : Char =>
        !decide ((65 ≤ c.toNat ∧ c.toNat ≤ 90) ∨
          (97 ≤ c.toNat ∧ c.toNat ≤ 122) ∨ (48 ≤ c.toNat ∧ c.toNat ≤ 57) ∨
          c.toNat = 304 ∨ c.toNat = 305 ∨ c.toNat = 383 ∨
          c.toNat = 8490)) := by
      funext c
      have : pyAlnumIC c = decide ((65 ≤ c.toNat ∧ c.toNat ≤ 90) ∨
          (97 ≤ c.toNat ∧ c.toNat ≤ 122) ∨ (48 ≤ c.toNat ∧ c.toNat ≤ 57) ∨
          c.toNat = 304 ∨ c.toNat = 305 ∨ c.toNat = 383 ∨
          c.toNat = 8490) := by
        rw [pyAlnumIC, decide_eq_decide]
        tauto
      rw [this]
    rw [to_specialChr, hfun]
  · decide

/-- C1 counterexample: `to_integer` does not delete every character
outside 0-9 — the Arabic-Indic digit ٣ (U+0663, decimal value 3) is a
`\d` character, so on the single-element series ["٣1"] the code keeps
it and parses 31, while the spec-worded digits-0-9-only filter would
keep only "1" and parse 1. -/
theorem to_integer_unicode_digit_cex :
    to_integer ⟨[0], [[Char.ofNat 1635, Char.ofNat 49]]⟩ DType.int =
      some (DType.int, ⟨[0], [31]⟩) ∧
    extract_numeric_specWorded ⟨[0], [[Char.ofNat 1635, Char.ofNat 49]]⟩
        DType.int =
      some (DType.int, ⟨[0], [1]⟩) ∧
    to_integer ⟨[0], [[Char.ofNat 1635, Char.ofNat 49]]⟩ DType.int ≠
      extract_numeric_specWorded ⟨[0], [[Char.ofNat 1635, Char.ofNat 49]]⟩
        DType.int := by
  refine ⟨by decide, by decide, by decide⟩

/-- C1 (amended): for every series and target type, `to_integer` maps
each element to the result of deleting every character that is not a
Unicode decimal digit (the class `\d`, which contains 0-9 and the
other decimal-digit characters) and combining the decimal values of the
remaining digits into a number of the target type; the call succeeds
exactly when every stripped element is nonempty, and the default target
type is floating-point. -/
theorem to_integer_characterization (s : Series PyStr) (d : DType) :
    to_integer s = to_integer s DType.float ∧
    to_integer s d =
      (if s.data.all (fun x => !(x.filter isPyDigit).isEmpty) then
        some (d, ⟨s.index, s.data.map (fun x => (x.filter isPyDigit).foldl
          (fun acc c => 10 * acc + pyDigitVal c) 0)⟩)
      else Option.none) := by
  refine ⟨rfl, ?_⟩
  simp only [to_integer, astypeList_clean s.data]
  by_cases hall : s.data.all (fun x => !(x.filter isPyDigit).isEmpty) = true
  · rw [if_pos hall, if_pos hall]
  · rw [if_neg hall, if_neg hall]

/-- C6: `to_integer` with integer target type fails on the series
["abc"] (no digits survive the stripping), and in general the
conversion fails exactly when the digit-stripped string of some element
cannot be cast to the target numeric type — that is, when it cannot be
parsed (empty string) or, for the int64 target, when its value exceeds
the representable range (overflow), as witnessed by a 19-digit element
that fails for the integer target but succeeds for the float target. -/
theorem to_integer_error_iff :
    to_integer_checked ⟨[0], ["abc".toList]⟩ DType.int = Option.none ∧
    (∀ (s : Series PyStr) (d : DType),
      to_integer_checked s d = Option.none ↔
        ∃ x ∈ s.data, astypeCast d (x.filter isPyDigit) = Option.none) ∧
    (∀ (x : PyStr) (d : DType),
      astypeCast d x = Option.none ↔
        (parsePyInt x = Option.none ∨
         (d = DType.int ∧ ∃ n, parsePyInt x = some n ∧ int64Max < n))) ∧
    to_integer_checked ⟨[0], ["9999999999999999999".toList]⟩ DType.int =
      Option.none ∧
    (to_integer_checked ⟨[0], ["9999999999999999999".toList]⟩
      DType.float).isSome = true := by
  refine ⟨by decide, ?_, ?_, by decide, by decide⟩
  · intro s d
    have h1 : to_integer_checked s d = Option.none ↔
        astypeList (astypeCast d)
          (s.data.map (fun x => x.filter isPyDigit)) = Option.none := by
      simp only [to_integer_checked]
      cases hm : astypeList (astypeCast d)
          (s.data.map (fun x => x.filter isPyDigit)) with
      | none => simp
      | some vals => simp
    rw [h1, astypeList_none_iff]
    constructor
    · rintro ⟨y, hy, hc⟩
      rw [List.mem_map] at hy
      obtain ⟨x, hx, rfl⟩ := hy
      exact ⟨x, hx, hc⟩
    · rintro ⟨x, hx, hc⟩
      exact ⟨x.filter isPyDigit, List.mem_map.mpr ⟨x, hx, rfl⟩, hc⟩
  · intro x d
    cases hp : parsePyInt x with
    | none =>
      simp only [astypeCast, hp]
      simp
    | some n =>
      cases d with
      | int =>
        by_cases hle : n ≤ int64Max
        · simp only [astypeCast, hp, if_pos hle]
          simp
          omega
        · simp only [astypeCast, hp, if_neg hle]
          simp
          omega
      | float =>
        simp only [astypeCast, hp]
        simp

/-- C7: all three operations return a series with the same index (and
hence the same length) as the input series; for `to_integer` this holds
whenever the conversion succeeds.  The embedding is purely functional,
so the input series itself is never modified. -/
theorem series_shape_preserved (s : Series PyStr) (pf : Bool)
    (k : PyKeep) (kn : PyKeepNum) (d : DType) :
    ((to_text s pf k kn).index = s.index ∧
     (to_text s pf k kn).data.length = s.data.length) ∧
    ((to_specialChr s).index = s.index ∧
     (to_specialChr s).data.length = s.data.length) ∧
    ∀ r : DType × Series Nat, to_integer s d = some r →
      r.2.index = s.index ∧ r.2.data.length = s.data.length := by
  refine ⟨⟨rfl, by simp [to_text]⟩, ⟨rfl, by simp [to_specialChr]⟩, ?_⟩
  intro r hr
  simp only [to_integer] at hr
  cases hm : astypeList parsePyInt (s.data.map (fun x => x.filter isPyDigit)) with
  | none => rw [hm] at hr; cases hr
  | some vals =>
    rw [hm] at hr
    cases hr
    refine ⟨rfl, ?_⟩
    have hlen := astypeList_length parsePyInt _ vals hm
    rw [List.length_map] at hlen
    exact hlen

/-- C7 witness: the shape-preservation statement instantiated on a
concrete series on which `to_integer` succeeds. -/
theorem series_shape_preserved_witness :
    to_integer ⟨[0], [['1']]⟩ DType.int =
      some (DType.int, ⟨[0], [1]⟩) ∧
    ((DType.int, (⟨[0], [1]⟩ : Series Nat)).2.index =
      (⟨[0], [['1']]⟩ : Series PyStr).index ∧
     (DType.int, (⟨[0], [1]⟩ : Series Nat)).2.data.length =
      (⟨[0], [['1']]⟩ : Series PyStr).data.length) :=
  ⟨by decide,
   (series_shape_preserved ⟨[0], [['1']]⟩ true PyKeep.none PyKeepNum.none
     DType.int).2.2 (DType.int, ⟨[0], [1]⟩) (by decide)⟩

/-- C8: `to_specialChr` is idempotent — applying it twice gives the same
result as applying it once, for every series of text elements. -/
theorem to_specialChr_idempotent (s : Series PyStr) :
    to_specialChr (to_specialChr s) = to_specialChr s := by
  cases s with
  | mk idx data =>
    simp [to_specialChr, List.map_map, Function.comp, List.filter_filter]

/-- C2 counterexample: the removal set of `to_text` is not the claimed
(punctuation ∪ digits) minus keep minus keep_digits — `keep` entries are
subtracted only from the punctuation string, so a digit named in `keep`
is still removed: on the series ["5"] with keep = ["5"], the code
returns [""] while the spec-worded removal set would return ["5"]. -/
theorem to_text_keep_digit_cex :
    to_text ⟨[0], [['5']]⟩ true (PyKeep.list [['5']]) PyKeepNum.none =
      ⟨[0], [[]]⟩ ∧
    strip_specWorded ⟨[0], [['5']]⟩ true ['5'] [] = ⟨[0], [['5']]⟩ ∧
    to_text ⟨[0], [['5']]⟩ true (PyKeep.list [['5']]) PyKeepNum.none ≠
      strip_specWorded ⟨[0], [['5']]⟩ true ['5'] [] := by
  refine ⟨by decide, by decide, by decide⟩

/-- C2 (amended): for single-character keep entries and single-digit
keep_digits entries, `to_text` deletes from each element exactly the
characters of the set (punctuation minus keep, when remove_punctuation
is true) ∪ (digits 0-9 minus keep_digits); the subtraction of `keep`
applies only to the punctuation part and that of `keep_digits` only to
the digit part, and all other characters pass through unchanged in
order and case. -/
theorem to_text_removal_structure (s : Series PyStr) (pf : Bool)
    (ks : List Char) (ns : List Int) (h : ∀ n ∈ ns, 0 ≤ n ∧ n < 10) :
    to_text s pf (PyKeep.list (ks.map (fun c => [c]))) (PyKeepNum.list ns) =
      ⟨s.index, s.data.map (fun x => x.filter (fun c =>
        !((if pf then pyPunctuation.filter (fun p => !ks.contains p)
           else []) ++
          pyNumbers.filter (fun v =>
            !(ns.map (fun n =>
              Char.ofNat (48 + n.toNat))).contains v)).contains c))⟩ := by
  have hP : (if keepTruthy (PyKeep.list (ks.map (fun c => [c]))) then
      (ks.map (fun c => [c])).foldl (fun p k => removeSubstr k p)
        pyPunctuation
    else pyPunctuation) =
      pyPunctuation.filter (fun p => !ks.contains p) := by
    cases ks with
    | nil => simp [keepTruthy]
    | cons k ks =>
      rw [if_pos (by simp [keepTruthy]), List.foldl_map]
      exact foldl_remove_singles (k :: ks) pyPunctuation
  have hN : (if keepNumTruthy (PyKeepNum.list ns) then
      ns.foldl (fun acc k => removeSubstr (intToStr k) acc) pyNumbers
    else pyNumbers) =
      pyNumbers.filter (fun v =>
        !(ns.map (fun n => Char.ofNat (48 + n.toNat))).contains v) := by
    cases ns with
    | nil => simp [keepNumTruthy]
    | cons n ns =>
      rw [if_pos (by simp [keepNumTruthy])]
      exact foldl_remove_num_digits (n :: ns) h pyNumbers
  simp only [to_text]
  rw [hP, hN]
  cases pf <;> rfl

/-- C2 witness: the amended removal-set statement applied to the series
["a.25"] with keep = ["5"] and keep_digits = [2]: the period and the 5
are removed, the letter and the kept digit 2 survive. -/
theorem to_text_removal_structure_witness :
    to_text ⟨[0], [['a', '.', '2', '5']]⟩ true
        (PyKeep.list (['5'].map (fun c => [c]))) (PyKeepNum.list [2]) =
      ⟨[0], [['a', '2']]⟩ :=
  (to_text_removal_structure ⟨[0], [['a', '.', '2', '5']]⟩ true ['5'] [2]
    (by decide)).trans (by decide)

/-- C9: keep and keep_digits values that are absent from the base
removal strings are silently ignored — with such values `to_text`
returns the same result as the call without them, and no error is
raised (the function is total). -/
theorem to_text_keep_absent_noop (s : Series PyStr) (pf : Bool)
    (ks : List PyStr) (ns : List Int)
    (h1 : ∀ k ∈ ks, occursIn k pyPunctuation = false)
    (h2 : ∀ n ∈ ns, occursIn (intToStr n) pyNumbers = false) :
    to_text s pf (PyKeep.list ks) (PyKeepNum.list ns) =
      to_text s pf PyKeep.none PyKeepNum.none := by
  have hP : (if keepTruthy (PyKeep.list ks) then
      ks.foldl (fun p k => removeSubstr k p) pyPunctuation
    else pyPunctuation) = pyPunctuation := by
    by_cases hks : keepTruthy (PyKeep.list ks) = true
    · rw [if_pos hks]
      exact foldl_remove_noop ks pyPunctuation h1
    · rw [if_neg hks]
  have hN : (if keepNumTruthy (PyKeepNum.list ns) then
      ns.foldl (fun acc k => removeSubstr (intToStr k) acc) pyNumbers
    else pyNumbers) = pyNumbers := by
    by_cases hns : keepNumTruthy (PyKeepNum.list ns) = true
    · rw [if_pos hns]
      exact foldl_remove_num_noop ns pyNumbers h2
    · rw [if_neg hns]
  simp only [to_text]
  rw [hP, hN]
  simp [keepTruthy, keepNumTruthy]

/-- C9 witness: keep = ["z"] (the letter z does not occur in the
punctuation string) is a no-op on the series ["ab3"]. -/
theorem to_text_keep_absent_noop_witness :
    (∀ k ∈ ([['z']] : List PyStr), occursIn k pyPunctuation = false) ∧
    to_text ⟨[0], ["ab3".toList]⟩ true (PyKeep.list [['z']])
        (PyKeepNum.list []) =
      to_text ⟨[0], ["ab3".toList]⟩ true PyKeep.none PyKeepNum.none :=
  ⟨by decide,
   to_text_keep_absent_noop ⟨[0], ["ab3".toList]⟩ true [['z']] []
     (by decide) (by decide)⟩

/-- C10: the scalar integer 0 as keep_num (and the empty string as
keep) has no effect, because the parameters are tested for Python
truthiness before processing: the call equals the call without them and
the digit 0 is still removed from every element — whereas the list [0]
is truthy and does preserve the digit 0. -/
theorem to_text_zero_truthiness :
    (∀ s : Series PyStr,
      to_text s true PyKeep.none (PyKeepNum.int 0) =
        to_text s true PyKeep.none PyKeepNum.none ∧
      to_text s true (PyKeep.str []) PyKeepNum.none =
        to_text s true PyKeep.none PyKeepNum.none ∧
      ∀ x ∈ (to_text s true PyKeep.none (PyKeepNum.int 0)).data,
        Char.ofNat 48 ∉ x) ∧
    to_text ⟨[0], [[Char.ofNat 48]]⟩ true PyKeep.none
        (PyKeepNum.list [0]) = ⟨[0], [[Char.ofNat 48]]⟩ ∧
    to_text ⟨[0], [[Char.ofNat 48]]⟩ true PyKeep.none
        (PyKeepNum.int 0) = ⟨[0], [[]]⟩ := by
  refine ⟨fun s => ⟨rfl, rfl, ?_⟩, by decide, by decide⟩
  intro x hx h0
  have hdata : (to_text s true PyKeep.none (PyKeepNum.int 0)).data =
      s.data.map (fun x => x.filter (fun c =>
        !(pyPunctuation ++ pyNumbers).contains c)) := rfl
  rw [hdata, List.mem_map] at hx
  obtain ⟨y, _, rfl⟩ := hx
  rw [List.mem_filter] at h0
  have hc : (pyPunctuation ++ pyNumbers).contains (Char.ofNat 48) = true := by
    decide
  have h2 := h0.2
  rw [hc] at h2
  cases h2

/-- C10 witness: on the series ["a0"], the call with keep_num = 0
removes the digit 0, so the output element "a" does not contain it. -/
theorem to_text_zero_truthiness_witness :
    ([Char.ofNat 97] ∈ (to_text ⟨[0], [[Char.ofNat 97, Char.ofNat 48]]⟩
      true PyKeep.none (PyKeepNum.int 0)).data) ∧
    Char.ofNat 48 ∉ [Char.ofNat 97] :=
  ⟨by decide,
   (to_text_zero_truthiness.1 ⟨[0], [[Char.ofNat 97, Char.ofNat 48]]⟩).2.2
     [Char.ofNat 97] (by decide)⟩

end NeatPy
